import Mathlib

/-!
Verification of the HTS-code classifier's core pipeline (duty calculator,
confidence normalization, fallback routing, schema mapping, batch runner).

Python sources are shallowly embedded:
* Python `float` values are idealized as exact rationals (`ℚ`); the claims
  under consideration are algebraic identities and sign facts, stated over
  this idealization.
* `float(...)` string parsing is modelled by `pyFloat`, covering the
  decimal-literal fragment (sign, digits, decimal point, exponent,
  surrounding whitespace).  Python's `inf`/`nan` spellings and digit-group
  underscores are outside the model.
* Fallible Python code is modelled with `Option`/`Except`; exceptions that
  the source catches locally are modelled by the corresponding handler
  branch.
-/

set_option maxRecDepth 4000

attribute [local semireducible] Rat.add Rat.mul Rat.sub Rat.inv Rat.ofScientific

/-! ## Python string primitives -/

/-- Python `str.isspace` characters relevant to `str.strip` / `float`. -/
def pyIsSpace (c : Char) : Bool :=
  c = ' ' || c = '\t' || c = '\n' || c = '\r' || c = '\x0b' || c = '\x0c'

/-- Models `str.strip()` on a character list. -/
def pyStripChars (cs : List Char) : List Char :=
  ((cs.dropWhile pyIsSpace).reverse.dropWhile pyIsSpace).reverse

/-- Python `str.strip()`. -/
def pyStrip (s : String) : String :=
  String.mk (pyStripChars s.toList)

/-- Python `str.lower()` (ASCII fragment). -/
def pyLower (s : String) : String :=
  String.mk (s.toList.map Char.toLower)

/-- Python `str.upper()` (ASCII fragment). -/
def pyUpper (s : String) : String :=
  String.mk (s.toList.map Char.toUpper)

/-- Python `s.replace(c, '')`: remove every occurrence of a character. -/
def removeAllChar (c : Char) (s : String) : String :=
  String.mk (s.toList.filter (fun d => d ≠ c))

/-- Python `s.split(c)[0]`: the substring before the first occurrence of `c`. -/
def takeBeforeChar (c : Char) (cs : List Char) : List Char :=
  cs.takeWhile (fun d => d ≠ c)

/-- Models `s.endswith(c)` (single-character suffix), on the character list to stay
kernel-computable. -/
def strEndsWithChar (c : Char) (s : String) : Bool :=
  match s.toList.getLast? with
  | some d => d = c
  | none => false

/-- Models `s[:-1]`. -/
def strDropLast (s : String) : String :=
  String.mk s.toList.dropLast

/-- Models `s[:n]`. -/
def strTake (n : Nat) (s : String) : String :=
  String.mk (s.toList.take n)

/-- Models `len(s)`. -/
def strLen (s : String) : Nat :=
  s.toList.length

/-! ## Python `float(...)` parsing, decimal fragment -/

/-- Digit run to its value. -/
def digitsToNat (ds : List Char) : Nat :=
  ds.foldl (fun n c => n * 10 + (c.toNat - 48)) 0

/-- Parse an optional sign, returning the sign and the rest. -/
def parseSign : List Char → ℤ × List Char
  | '+' :: r => (1, r)
  | '-' :: r => (-1, r)
  | cs => (1, cs)

/-- Parse the exponent suffix (`e`/`E`, optional sign, at least one digit);
the whole remaining input must be consumed. -/
def parseExp : List Char → Option ℤ
  | [] => some 0
  | 'e' :: r => parseExpDigits r
  | 'E' :: r => parseExpDigits r
  | _ => none
where
  parseExpDigits (r : List Char) : Option ℤ :=
    let (sg, r) := parseSign r
    let (ds, rest) := r.span Char.isDigit
    if ds.isEmpty || !rest.isEmpty then none
    else some (sg * (digitsToNat ds : ℤ))

/-- Core of Python `float` on a stripped character list. -/
def pyFloatCore (cs : List Char) : Option ℚ :=
  let (sg, cs) := parseSign cs
  let (ip, cs) := cs.span Char.isDigit
  let (fp, cs) :=
    match cs with
    | '.' :: r => let (fp, r') := r.span Char.isDigit
                  (fp, r')
    | _ => ([], cs)
  if ip.isEmpty && fp.isEmpty then none
  else
    match parseExp cs with
    | some e =>
        let mant : ℚ := (digitsToNat ip : ℚ) + (digitsToNat fp : ℚ) / (10 : ℚ) ^ fp.length
        some ((sg : ℚ) * mant * (10 : ℚ) ^ e)
    | none => none

/-- The dot must have digits on at least one side and nothing may trail the
number; Python `float` tolerates surrounding whitespace. -/
def pyFloat (s : String) : Option ℚ :=
  pyFloatCore (pyStripChars s.toList)

/-! ## DutyCalculator (src/utils/duty_calculator.py) -/

/-- Models `DutyCalculator.parse_duty_rate`: parse a duty-rate string to a decimal
rate.  Follows the source line by line. -/
def parse_duty_rate (duty_rate_str : String) : ℚ :=
  if duty_rate_str = "" ∨ pyLower duty_rate_str = "free" ∨
      pyLower duty_rate_str = "n/a" ∨ pyLower duty_rate_str = "none" then 0
  else if duty_rate_str.toList.contains '%' then
    match pyFloat (String.mk (pyStripChars
        (takeBeforeChar '+' (takeBeforeChar '%' duty_rate_str.toList)))) with
    | some rate => rate / 100
    | none => 0
  else 0

/-- Result dictionary of `DutyCalculator.calculate_duties` (numeric and
string payloads; the timestamp field is not modelled). -/
structure DutyBreakdown where
  customs_value : ℚ
  duty_rate_applied : String
  duty_rate_decimal : ℚ
  base_duty : ℚ
  mpf : ℚ
  hmf : ℚ
  total_duties_and_fees : ℚ
  total_landed_cost : ℚ
  effective_duty_rate : ℚ
deriving DecidableEq, Repr

/-- Models `preferential_rate if preferential_rate else duty_rate`: Python
truthiness makes an empty preferential string fall back to `duty_rate`. -/
def effective_rate_str (preferential_rate : Option String) (duty_rate : String) : String :=
  match preferential_rate with
  | some p => if p = "" then duty_rate else p
  | none => duty_rate

/-- Models `DutyCalculator.MPF_RATE` -/
def MPF_RATE : ℚ := 0.003464
/-- Models `DutyCalculator.MPF_MIN` -/
def MPF_MIN : ℚ := 27.75
/-- Models `DutyCalculator.MPF_MAX` -/
def MPF_MAX : ℚ := 538.40
/-- Models `DutyCalculator.HMF_RATE` -/
def HMF_RATE : ℚ := 0.00125

/-- Models `DutyCalculator.calculate_duties`, following the source. -/
def calculate_duties (customs_value : ℚ) (duty_rate : String)
    (shipping_method : String) (include_mpf : Bool) (include_hmf : Bool)
    (preferential_rate : Option String) : DutyBreakdown :=
  let effective_duty_rate_str := effective_rate_str preferential_rate duty_rate
  let duty_rate_decimal := parse_duty_rate effective_duty_rate_str
  let base_duty := customs_value * duty_rate_decimal
  let mpf : ℚ :=
    if include_mpf then max MPF_MIN (min (customs_value * MPF_RATE) MPF_MAX)
    else 0
  let hmf : ℚ :=
    if include_hmf ∧ pyLower shipping_method = "sea" then customs_value * HMF_RATE
    else 0
  let total_duties := base_duty + mpf + hmf
  let total_landed_cost := customs_value + total_duties
  let effective_rate : ℚ :=
    if 0 < customs_value then total_duties / customs_value * 100 else 0
  { customs_value := customs_value
    duty_rate_applied := effective_duty_rate_str
    duty_rate_decimal := duty_rate_decimal
    base_duty := base_duty
    mpf := mpf
    hmf := hmf
    total_duties_and_fees := total_duties
    total_landed_cost := total_landed_cost
    effective_duty_rate := effective_rate }

/-! ## Claim-side specifications for the duty calculator -/

/-- The breakdown C1 claims `calculate_duties` returns, transcribed from the
claim's words: `rate = parseDutyRate(preferentialRateText if provided else
dutyRateText)`, `maintenanceFee` paid only when `shippingMethod` equals
`"sea"`, `processingFee = clamp(customsValue * 0.003464, 27.75, 538.40)`. -/
def C1_claimedBreakdown (customsValue : ℚ) (dutyRateText shippingMethod : String)
    (includeMPF includeHMF : Bool) (preferentialRateText : Option String)
    (b : DutyBreakdown) : Prop :=
  let rate := parse_duty_rate (preferentialRateText.getD dutyRateText)
  b.base_duty = customsValue * rate ∧
  b.mpf = (if includeMPF then min (max (customsValue * 0.003464) 27.75) 538.40 else 0) ∧
  b.hmf = (if includeHMF ∧ shippingMethod = "sea" then customsValue * 0.00125 else 0) ∧
  b.total_duties_and_fees = b.base_duty + b.mpf + b.hmf ∧
  b.total_landed_cost = customsValue + b.total_duties_and_fees ∧
  b.effective_duty_rate =
    (if 0 < customsValue then b.total_duties_and_fees / customsValue * 100 else 0)

/-- C1 amended: as `C1_claimedBreakdown`, except that the shipping method is
compared case-insensitively with `"sea"` and a provided-but-empty
preferential rate falls back to the standard rate (Python truthiness). -/
def C1_amendedBreakdown (customsValue : ℚ) (dutyRateText shippingMethod : String)
    (includeMPF includeHMF : Bool) (preferentialRateText : Option String)
    (b : DutyBreakdown) : Prop :=
  let rate := parse_duty_rate (effective_rate_str preferentialRateText dutyRateText)
  b.base_duty = customsValue * rate ∧
  b.mpf = (if includeMPF then min (max (customsValue * 0.003464) 27.75) 538.40 else 0) ∧
  b.hmf = (if includeHMF ∧ pyLower shippingMethod = "sea" then customsValue * 0.00125 else 0) ∧
  b.total_duties_and_fees = b.base_duty + b.mpf + b.hmf ∧
  b.total_landed_cost = customsValue + b.total_duties_and_fees ∧
  b.effective_duty_rate =
    (if 0 < customsValue then b.total_duties_and_fees / customsValue * 100 else 0)

instance (cv : ℚ) (duty ship : String) (m h : Bool) (p : Option String)
    (b : DutyBreakdown) : Decidable (C1_claimedBreakdown cv duty ship m h p b) := by
  unfold C1_claimedBreakdown; infer_instance

instance (cv : ℚ) (duty ship : String) (m h : Bool) (p : Option String)
    (b : DutyBreakdown) : Decidable (C1_amendedBreakdown cv duty ship m h p b) := by
  unfold C1_amendedBreakdown; infer_instance

/-- C5's description of `parse_duty_rate`, transcribed from the claim:
empty or `Free`/`N/A`/`None` (case-insensitive) give `0.0`; text containing
`%` gives the number before the first `%` (truncated at the first `+`)
divided by 100, or `0.0` when that does not parse; anything else `0.0`. -/
def C5_parseDutyRateSpec (s : String) : ℚ :=
  if s = "" then 0
  else if pyLower s = "free" ∨ pyLower s = "n/a" ∨ pyLower s = "none" then 0
  else if s.toList.contains '%' then
    match pyFloat (String.mk (pyStripChars
        (takeBeforeChar '+' (takeBeforeChar '%' s.toList)))) with
    | some n => n / 100
    | none => 0
  else 0

/-! ## Confidence normalizers -/

/-- Models `_float_conf` from the `classify_button` handler in `app.py`: strip, drop
one trailing `%`, parse, scale `[0,1]` to a percentage, clamp to `[0,100]`;
`-1` on parse failure.  Its argument is the `str()` image of the raw value
(`None` arrives as `"None"`). -/
def _float_conf (x : String) : ℚ :=
  let s := pyStrip x
  let s := if strEndsWithChar '%' s then strDropLast s else s
  match pyFloat s with
  | some n =>
      let n := if 0 ≤ n ∧ n ≤ 1 then n * 100 else n
      max 0 (min 100 n)
  | none => -1

/-- Models `EnhancedBatchProcessor._parse_confidence` (identical in
`batch_processor.py`): strip, remove every `%`, parse, scale `[0,1]` to a
percentage, clamp to `[0,100]`; `0.0` on parse failure. -/
def _parse_confidence (x : String) : ℚ :=
  let s := removeAllChar '%' (pyStrip x)
  match pyFloat s with
  | some n =>
      let n := if 0 ≤ n ∧ n ≤ 1 then n * 100 else n
      max 0 (min 100 n)
  | none => 0

/-- Models `Config.CONFIDENCE_THRESHOLD` (`config/settings.py`, default of the
`CONFIDENCE_THRESHOLD` environment variable). -/
def CONFIDENCE_THRESHOLD : ℚ := 0.80

/-- Step 7 of `HSCodeAgent.classify_product`:
`float(conf.replace('%','')) < Config.CONFIDENCE_THRESHOLD * 100`.  The
`float` call raises on unparsable confidence text, hence `Option`. -/
def hs_needs_review (confRaw : String) : Option Bool :=
  (pyFloat (removeAllChar '%' confRaw)).map
    (fun n => decide (n < CONFIDENCE_THRESHOLD * 100))

/-- Round half to even, modelling Python's `f"{n:.0f}"` on an exact value. -/
def roundHalfEven (q : ℚ) : ℤ :=
  let f := ⌊q⌋
  let r := q - f
  if r < 1/2 then f
  else if 1/2 < r then f + 1
  else if f % 2 = 0 then f else f + 1

/-- The clamped numeric value inside `_to_pct` (`fallback_analyzer.py`)
before formatting: only the no-`%` branch rescales `[0,1]` inputs;
`none` when `float` fails (the handler then returns `"0%"`). -/
def _to_pct_val (x : String) : Option ℚ :=
  let s := pyStrip x
  if strEndsWithChar '%' s then
    (pyFloat (strDropLast s)).map (fun n => max 0 (min 100 n))
  else
    (pyFloat s).map (fun n =>
      max 0 (min 100 (if 0 ≤ n ∧ n ≤ 1 then n * 100 else n)))

/-- Models `conf_num` in `FallbackAnalyzer.analyze_unknown_product`: the confidence
is rendered as `f"{n:.0f}%"` by `_to_pct` and immediately re-parsed, which
amounts to rounding half-to-even; the `"0%"` failure string re-parses to 0. -/
def fallback_conf_num (x : String) : ℚ :=
  match _to_pct_val x with
  | some n => (roundHalfEven n : ℚ)
  | none => 0

/-- Models `needs_review = conf_num < 80 or code in ("", "N/A")` in
`FallbackAnalyzer.analyze_unknown_product` (the code argument is the
already-defaulted `recommended_code`). -/
def fallback_needs_review (code : String) (confRaw : String) : Bool :=
  decide (fallback_conf_num confRaw < 80) || (code = "" || code = "N/A")

/-! ## Classification results and fallback routing -/

/-- The classification-dict fields the routing and batch code reads. -/
structure Classification where
  recommended_code : String
  confidence : String
  duty_rate : String
  reasoning : String
deriving DecidableEq, Repr

/-- Models `missing_or_low` in the `classify_button` handler (`app.py`):
`rec_code = str(result.get('recommended_code','')).strip().upper()` is a
sentinel or the normalized confidence is below 50. -/
def app_missing_or_low (result : Classification) : Prop :=
  (pyUpper (pyStrip result.recommended_code) = "" ∨
   pyUpper (pyStrip result.recommended_code) = "N/A" ∨
   pyUpper (pyStrip result.recommended_code) = "ERROR") ∨
  _float_conf result.confidence < 50

instance (result : Classification) : Decidable (app_missing_or_low result) := by
  unfold app_missing_or_low; infer_instance

/-- The `app.py` routing step: when fallback is enabled and the primary
result is missing-or-low, the working result is replaced wholesale by the
fallback's output.  The second component counts fallback invocations. -/
def app_route (enable_fallback : Bool) (primary fallbackResult : Classification) :
    Classification × Nat :=
  if enable_fallback = true ∧ app_missing_or_low primary then (fallbackResult, 1)
  else (primary, 0)

/-- Models `EnhancedBatchProcessor.process_batch_with_duties` routing (identical in
`batch_processor.py`): `if self.fallback and confidence < 50`, with
`confidence = self._parse_confidence(classification.get('confidence', 0))`;
the recommended code is not consulted. -/
def batch_route (fallback : Option Classification) (primary : Classification) :
    Classification × Nat :=
  match fallback with
  | some fb => if _parse_confidence primary.confidence < 50 then (fb, 1) else (primary, 0)
  | none => (primary, 0)

/-! ## DataFrames -/

/-- A pandas column: an object/string column or a numeric column whose
missing entries (`NaN`) are `none`.  Object columns read from spreadsheets
are modelled post-fillna: missing text is the empty string. -/
inductive ColData where
  | text (cells : List String)
  | numeric (cells : List (Option ℚ))
deriving DecidableEq, Repr

/-- A pandas DataFrame: row count plus named columns in order.  Frames whose
normalized column labels collide behave like pandas duplicate labels and are
outside the model (the theorems assume distinct labels). -/
structure DataFrame where
  nrows : Nat
  cols : List (String × ColData)
deriving DecidableEq, Repr

/-- Column lookup (pandas `df[name]` with unique labels). -/
def getCol (cols : List (String × ColData)) (k : String) : Option ColData :=
  (cols.find? (fun c => c.1 = k)).map (fun c => c.2)

/-- Models `name in df.columns`. -/
def hasCol (cols : List (String × ColData)) (k : String) : Bool :=
  cols.any (fun c => c.1 = k)

/-- Models `df[name] = data` with unique labels: replace in place, else append. -/
def setCol : List (String × ColData) → String → ColData → List (String × ColData)
  | [], k, d => [(k, d)]
  | c :: cs, k, d => if c.1 = k then (k, d) :: cs else c :: setCol cs k d

/-- Models `df.select_dtypes(include=['object','string'])` membership. -/
def isTextData : ColData → Bool
  | .text _ => true
  | .numeric _ => false

/-- Column-name normalization in `detect_and_map_columns`:
`str.strip().str.lower().str.replace(r'[^\w\s]','',regex=True)`. -/
def normalizeName (s : String) : String :=
  String.mk (((pyStripChars s.toList).map Char.toLower).filter
    (fun c => c.isAlphanum || c = '_' || pyIsSpace c))

/-! ## The regex fragment used by the column patterns -/

/-- Tokens of the pattern fragment appearing in `column_patterns`: literal
runs and `.*`. -/
inductive RTok where
  | lit (cs : List Char)
  | star
deriving DecidableEq, Repr

/-- Matcher for a token list against a full character list.  `star` consumes
an arbitrary (possibly empty) run. -/
def rmatch : List RTok → List Char → Bool
  | [], s => s.isEmpty
  | .lit cs :: rest, s => cs.isPrefixOf s && rmatch rest (s.drop cs.length)
  | .star :: rest, s => (suffixesOf s).any (fun t => rmatch rest t)
where
  /-- All suffixes of a list, longest first. -/
  suffixesOf : List Char → List (List Char)
    | [] => [[]]
    | c :: t => (c :: t) :: suffixesOf t

/-- Compile one of the source's pattern strings (which use only literals,
`.*`, `^`, `$`) into tokens; `re.match` anchors at the start, and a pattern
not ending in `$` may be followed by anything. -/
def mkPatCore : List Char → List RTok
  | [] => []
  | '.' :: '*' :: rest => .star :: mkPatCore rest
  | '$' :: rest => mkPatCore rest
  | c :: rest =>
    match mkPatCore rest with
    | .lit cs :: ts => .lit (c :: cs) :: ts
    | ts => .lit [c] :: ts

/-- Compile a full pattern string. -/
def mkPat (s : String) : List RTok :=
  let cs := match s.toList with
    | '^' :: r => r
    | r => r
  let toks := mkPatCore cs
  if strEndsWithChar '$' s then toks else toks ++ [.star]

/-- Models `re.match(pattern, col)` for one of the source's patterns. -/
def patMatches (p : List RTok) (name : String) : Bool :=
  rmatch p name.toList

/-- Whether any of a field's patterns matches a normalized column name. -/
def matchesAny (pats : List (List RTok)) (name : String) : Bool :=
  pats.any (fun p => patMatches p name)

/-- Models `column_patterns` of `EnhancedBatchProcessor.detect_and_map_columns`,
field order and pattern order as in the source. -/
def column_patterns : List (String × List (List RTok)) :=
  [ ("product_name",
      [mkPat ".*product.*name.*", mkPat ".*item.*name.*", mkPat ".*sku.*name.*",
       mkPat "^name$", mkPat "^product$", mkPat "^item$", mkPat "^sku$",
       mkPat "^title$", mkPat ".*description.*1.*", mkPat "^article$",
       mkPat "^merchandise$", mkPat "^goods$", mkPat "^commodity$",
       mkPat "^part.*number$"]),
    ("description",
      [mkPat "^description$", mkPat "^desc$", mkPat ".*detail.*",
       mkPat ".*specification.*", mkPat ".*description.*2.*",
       mkPat ".*long.*desc.*", mkPat ".*full.*desc.*", mkPat "^spec$",
       mkPat "^info$", mkPat ".*information$", mkPat "^about$",
       mkPat "^summary$", mkPat "^overview$", mkPat "^features$"]),
    ("material",
      [mkPat ".*material.*", mkPat ".*composition.*", mkPat ".*fabric.*",
       mkPat ".*made.*", mkPat "^construction$", mkPat ".*component.*",
       mkPat ".*ingredient.*", mkPat ".*substance.*", mkPat ".*content$"]),
    ("intended_use",
      [mkPat ".*use.*", mkPat ".*purpose.*", mkPat ".*application.*",
       mkPat ".*function.*", mkPat ".*usage$", mkPat ".*end.*use.*",
       mkPat ".*category$", mkPat ".*type$"]),
    ("origin",
      [mkPat ".*origin.*", mkPat ".*country.*", mkPat ".*coo$",
       mkPat ".*made.*in.*", mkPat ".*source.*", mkPat ".*from$",
       mkPat ".*manufactured.*", mkPat ".*location$"]),
    ("quantity",
      [mkPat ".*quantity.*", mkPat ".*qty.*", mkPat ".*units.*",
       mkPat ".*pieces.*", mkPat ".*count$", mkPat ".*amount$",
       mkPat "^qty$", mkPat "^q$"]),
    ("unit_value",
      [mkPat ".*unit.*price.*", mkPat ".*unit.*value.*", mkPat ".*price.*per.*",
       mkPat "^price$", mkPat "^cost$", mkPat ".*unit.*cost.*", mkPat "^value$"]),
    ("customs_value",
      [mkPat ".*customs.*value.*", mkPat ".*total.*value.*", mkPat ".*invoice.*",
       mkPat ".*declared.*", mkPat "^total$", mkPat ".*extended.*",
       mkPat ".*amount$"]) ]

/-- The eight standardized field names, in `column_patterns` order. -/
def standardFields : List String :=
  ["product_name", "description", "material", "intended_use", "origin",
   "quantity", "unit_value", "customs_value"]

/-- Models `mapping_info` of `detect_and_map_columns`. -/
structure MappingInfo where
  original_columns : List String
  detected_mappings : List (String × String)
  created_columns : List (String × String)
deriving DecidableEq, Repr

/-- The normalized view of a frame's columns:
`(normalized name, original name, data)` in column order. -/
def normCols (df : DataFrame) : List (String × String × ColData) :=
  df.cols.map (fun c => (normalizeName c.1, c.1, c.2))

/-- The pattern-mapping loop: for each field in order, the first
not-yet-consumed column (in column order) matching any of the field's
patterns is assigned to it.  Returns the standardized columns built so far,
the consumed normalized names, and the `detected_mappings`
(field, original name) pairs. -/
def mapFieldsGo :
    List (String × List (List RTok)) → List (String × String × ColData) →
      List String → List (String × ColData) × List String × List (String × String)
  | [], _, consumed => ([], consumed, [])
  | (f, pats) :: rest, cols, consumed =>
    match cols.find? (fun c => !(consumed.contains c.1) && matchesAny pats c.1) with
    | some c =>
        let r := mapFieldsGo rest cols (c.1 :: consumed)
        ((f, c.2.2) :: r.1, r.2.1, (f, c.2.1) :: r.2.2)
    | none => mapFieldsGo rest cols consumed

/-- Copy over any unmapped columns (extra data is preserved). -/
def carryUnmapped (cols : List (String × String × ColData)) (consumed : List String)
    (std : List (String × ColData)) : List (String × ColData) :=
  cols.foldl (fun acc c => if consumed.contains c.1 then acc else setCol acc c.1 c.2.2) std

/-- The text-typed columns of the normalized frame, in order. -/
def textColumnsOf (cols : List (String × String × ColData)) : List (String × ColData) :=
  (cols.filter (fun c => isTextData c.2.2)).map (fun c => (c.1, c.2.2))

/-- Models the generated placeholder list: one name `Product_` followed by
the 1-based row number, for each row. -/
def placeholderNames (n : Nat) : List String :=
  (List.range n).map (fun i => "Product_" ++ toString (i + 1))

/-- Cell of a text column at a row index. -/
def textCellAt (d : ColData) (i : Nat) : String :=
  match d with
  | .text cs => cs.getD i ""
  | .numeric _ => ""

/-- Row-wise `' '.join(str(val) for val in x if val)` over the text columns
(after the fillna with empty strings; empty cells are falsy and skipped). -/
def combinedDescription (tcols : List (String × ColData)) (n : Nat) : List String :=
  (List.range n).map (fun i =>
    String.intercalate " "
      ((tcols.map (fun c => textCellAt c.2 i)).filter (fun v => v ≠ "")))

/-- Fallback creation of `product_name`: first text column, else sequential
placeholder names. -/
def createProductName (std : List (String × ColData)) (tcols : List (String × ColData))
    (n : Nat) : List (String × ColData) × List (String × String) :=
  if hasCol std "product_name" then (std, [])
  else
    match tcols with
    | t :: _ =>
        (setCol std "product_name" t.2, [("product_name", "Created from " ++ t.1)])
    | [] =>
        (setCol std "product_name" (.text (placeholderNames n)),
         [("product_name", "Auto-generated")])

/-- Fallback creation of `description`: combination of several text columns,
a single text column, else a copy of `product_name`. -/
def createDescription (std : List (String × ColData)) (tcols : List (String × ColData))
    (n : Nat) : List (String × ColData) × List (String × String) :=
  if hasCol std "description" then (std, [])
  else
    match tcols with
    | _ :: _ :: _ =>
        (setCol std "description" (.text (combinedDescription tcols n)),
         [("description", "Combined from text columns")])
    | [t] =>
        (setCol std "description" t.2, [("description", "Copied from " ++ t.1)])
    | [] =>
        (setCol std "description" ((getCol std "product_name").getD (.text [])),
         [("description", "Copied from product_name")])

/-- Models `for field in fields: if field not in df.columns: df[field] = default`. -/
def ensureCols (g : String → ColData) (names : List String)
    (cols : List (String × ColData)) : List (String × ColData) :=
  names.foldl (fun acc f => if hasCol acc f then acc else setCol acc f (g f)) cols

/-- Models `standardized_df[field] = ''` for absent optional fields. -/
def addOptionalDefaults (std : List (String × ColData)) (n : Nat) :
    List (String × ColData) :=
  ensureCols (fun _ => .text (List.replicate n "")) ["material", "intended_use", "origin"] std

/-- Models `standardized_df[field] = np.nan` for absent numeric fields. -/
def addNumericDefaults (std : List (String × ColData)) (n : Nat) :
    List (String × ColData) :=
  ensureCols (fun _ => .numeric (List.replicate n none))
    ["quantity", "unit_value", "customs_value"] std

/-- Models `EnhancedBatchProcessor.detect_and_map_columns`. -/
def detect_and_map_columns (df : DataFrame) : DataFrame × MappingInfo :=
  let ncols := normCols df
  let m := mapFieldsGo column_patterns ncols []
  let std1 := carryUnmapped ncols m.2.1 m.1
  let tcols := textColumnsOf ncols
  let p := createProductName std1 tcols df.nrows
  let q := createDescription p.1 tcols df.nrows
  let std4 := addOptionalDefaults q.1 df.nrows
  let std5 := addNumericDefaults std4 df.nrows
  (⟨df.nrows, std5⟩,
   ⟨df.cols.map (fun c => c.1), m.2.2, p.2 ++ q.2⟩)

/-! ## validate_input_file (enhanced processor) -/

/-- Result of `EnhancedBatchProcessor.validate_input_file`; `df` is the
caller's frame after the in-place column writes. -/
structure ValidateResult where
  df : DataFrame
  is_valid : Bool
  message : String
  mapping : MappingInfo
deriving DecidableEq, Repr

/-- Models `for col in standardized_df.columns: df[col] = standardized_df[col]`. -/
def writeback (cols std : List (String × ColData)) : List (String × ColData) :=
  std.foldl (fun acc c => setCol acc c.1 c.2) cols

/-- Models `df[col].notna().any()`. -/
def colNotnaAny : ColData → Bool
  | .text cs => !cs.isEmpty
  | .numeric cs => cs.any (fun v => v.isSome)

/-- The `with_duties` feasibility probe over the mutated frame. -/
def has_value_data (cols : List (String × ColData)) : Bool :=
  ["customs_value", "unit_value", "quantity"].any (fun f =>
    match getCol cols f with
    | some d => colNotnaAny d
    | none => false)

/-- The success message assembled by `validate_input_file`. -/
def validateMessage (n : Nat) (info : MappingInfo) (with_duties : Bool)
    (cols : List (String × ColData)) : String :=
  let parts := ["✅ File processed successfully (" ++ toString n ++ " products)"]
  let parts :=
    if info.detected_mappings.isEmpty then parts
    else parts ++ ["Detected: " ++ String.intercalate ", "
      ((info.detected_mappings.take 3).map (fun p => p.1 ++ " ← " ++ p.2))]
  let parts :=
    if info.created_columns.isEmpty then parts
    else parts ++ ["Auto-created: " ++ String.intercalate ", "
      (info.created_columns.map (fun p => p.1))]
  let parts :=
    if with_duties = true ∧ has_value_data cols = false then
      parts ++ ["⚠️ No value data found - duty calculation disabled"]
    else parts
  String.intercalate " | " parts

/-- Models `EnhancedBatchProcessor.validate_input_file`: reject empty or oversized
frames before any other work; otherwise standardize and write the
standardized columns into the caller's frame. -/
def validate_input_file (df : DataFrame) (with_duties : Bool) : ValidateResult :=
  if df.nrows = 0 then
    ⟨df, false, "The file contains no data rows", ⟨[], [], []⟩⟩
  else if 100 < df.nrows then
    ⟨df, false, "File contains " ++ toString df.nrows ++
      " rows. Maximum 100 products per batch. Please split your file.", ⟨[], [], []⟩⟩
  else
    let r := detect_and_map_columns df
    let newCols := writeback df.cols r.1.cols
    ⟨⟨df.nrows, newCols⟩, true, validateMessage df.nrows r.2 with_duties newCols, r.2⟩

/-! ## validate_input_file (legacy batch_processor.py variant) -/

/-- Optional classification columns of the legacy validator. -/
def bp_optional_columns : List String :=
  ["material", "intended_use", "origin", "country_of_origin", "use"]

/-- Optional duty columns of the legacy validator. -/
def bp_duty_columns : List String :=
  ["quantity", "unit_value", "customs_value", "fob_value", "freight", "insurance"]

/-- Models `df[col] = np.nan if col in duty_columns else ''` for missing columns. -/
def bp_addDefaults (cols : List (String × ColData)) (n : Nat) :
    List (String × ColData) :=
  ensureCols
    (fun f =>
      if bp_duty_columns.contains f then .numeric (List.replicate n none)
      else .text (List.replicate n ""))
    (bp_optional_columns ++ bp_duty_columns) cols

/-- One row's value probe of the legacy validator (numeric columns only;
comparing a string with `0` would raise in the source and is outside the
model). -/
def bp_has_value_row (cols : List (String × ColData)) (i : Nat) : Bool :=
  ["customs_value", "unit_value", "fob_value"].any (fun f =>
    match getCol cols f with
    | some (.numeric cs) =>
        match cs.getD i none with
        | some v => decide (0 < v)
        | none => false
    | _ => false)

/-- Models `validate_input_file` of the legacy `batch_processor.py`: requires
`product_name`/`description` columns, writes default optional columns into
the caller's frame, and only then checks the row count. -/
def bp_validate_input_file (df : DataFrame) (with_duties : Bool) :
    DataFrame × Bool × String :=
  let missing := ["product_name", "description"].filter (fun f => !(hasCol df.cols f))
  if !missing.isEmpty then
    (df, false, "Missing required columns: " ++ String.intercalate ", " missing)
  else
    let cols1 := bp_addDefaults df.cols df.nrows
    let df1 : DataFrame := ⟨df.nrows, cols1⟩
    if df.nrows = 0 then (df1, false, "The file contains no data rows")
    else if 100 < df.nrows then
      (df1, false, "File contains too many rows. Maximum 100 products per batch.")
    else if with_duties = true ∧
        (List.range df.nrows).any (fun i => bp_has_value_row cols1 i) = false then
      (df1, false,
       "Duty calculation requested but no value data found. Add customs_value, unit_value, or fob_value columns.")
    else (df1, true, "File validated successfully (" ++ toString df.nrows ++ " products)")

/-! ## EnhancedBatchProcessor.process_batch_with_duties -/

/-- A cell of a result row: a string or a numeric value (`none` is NaN). -/
inductive Cell where
  | s (v : String)
  | n (v : Option ℚ)
deriving DecidableEq, Repr

/-- A result-row dictionary in insertion order. -/
abbrev Row := List (String × Cell)

/-- Models `row.get(key)` (returning `none` when the key is absent). -/
def rowGet (row : Row) (k : String) : Option Cell :=
  (row.find? (fun c => c.1 = k)).map (fun c => c.2)

/-- Models `row_result[key] = value`: replace in place, else append. -/
def setCell : Row → String → Cell → Row
  | [], k, d => [(k, d)]
  | c :: cs, k, d => if c.1 = k then (k, d) :: cs else c :: setCell cs k d

/-- Models `row_result.update(...)`. -/
def updateRow (row : Row) (upd : Row) : Row :=
  upd.foldl (fun acc c => setCell acc c.1 c.2) row

/-- The frame's `i`-th row as a dictionary (`iterrows` + `to_dict`). -/
def rowOfFrame (df : DataFrame) (i : Nat) : Row :=
  df.cols.map (fun c =>
    (c.1,
     match c.2 with
     | .text cs => Cell.s (cs.getD i "")
     | .numeric cs => Cell.n (cs.getD i none)))

/-- All rows of a frame in order. -/
def rowsOf (df : DataFrame) : List Row :=
  (List.range df.nrows).map (fun i => rowOfFrame df i)

/-- Models `pd.notna(value)`. -/
def cellNotna : Cell → Bool
  | .s _ => true
  | .n v => v.isSome

/-- Models `str(value)` on a cell.  The decimal rendering of floats differs from
`toString` on `ℚ`; it only feeds the classification request text and no
theorem depends on it. -/
def pyStrOfCell : Cell → String
  | .s v => v
  | .n (some q) => toString q
  | .n none => "nan"

/-- Models `float(value)` on a cell. -/
def pyFloatOfCell : Cell → Option ℚ
  | .s v => pyFloat v
  | .n v => v

/-- Substring test (Python `needle in hay`). -/
def strContains (hay needle : String) : Bool :=
  rmatch [RTok.star, RTok.lit needle.toList, RTok.star] hay.toList

/-- The `product_info` dictionary built for one row. -/
structure ProductInfo where
  product_name : String
  description : String
  material : String
  use : String
  origin : String
deriving DecidableEq, Repr

/-- Models `product_info` construction in `process_batch_with_duties`
(`enhanced_batch_processor.py`): note the `or` fallbacks on emptiness. -/
def product_info_of_row (idx : Nat) (row : Row) : ProductInfo :=
  let pn0 := pyStrip (pyStrOfCell ((rowGet row "product_name").getD (.s "")))
  let d0 := pyStrip (pyStrOfCell ((rowGet row "description").getD (.s "")))
  { product_name := if pn0 = "" then "Product_" ++ toString (idx + 1) else pn0
    description := if d0 = "" then pyStrOfCell ((rowGet row "product_name").getD (.s "")) else d0
    material := pyStrip (pyStrOfCell ((rowGet row "material").getD (.s "")))
    use := pyStrip (pyStrOfCell
      ((rowGet row "intended_use").getD ((rowGet row "use").getD (.s ""))))
    origin := pyStrip (pyStrOfCell
      ((rowGet row "origin").getD ((rowGet row "country_of_origin").getD (.s "")))) }

/-- The injected collaborators of `EnhancedBatchProcessor`: the classifying
agent, the optional fallback analyzer, the optional duty calculator.  Each
call may raise (`Except.error`). -/
structure BatchEnv where
  classify : ProductInfo → Except String Classification
  fallback : Option (ProductInfo → Except String Classification)
  duty_calculator : Option (ℚ → String → String → Bool → Bool → Except String DutyBreakdown)

/-- Classification followed by the in-loop fallback routing; both calls sit
inside the per-row `try`. -/
def class_chain (env : BatchEnv) (pi : ProductInfo) : Except String Classification :=
  match env.classify pi with
  | .error e => .error e
  | .ok cls =>
    match env.fallback with
    | some fb => if _parse_confidence cls.confidence < 50 then fb pi else .ok cls
    | none => .ok cls

/-- First customs-value attempt: an explicit non-NaN `customs_value` cell
(`try: float(...) except: pass` keeps 0 on parse failure). -/
def cv_direct (row : Row) : ℚ :=
  match rowGet row "customs_value" with
  | some c => if cellNotna c then (pyFloatOfCell c).getD 0 else 0
  | none => 0

/-- Second attempt: `quantity * unit_value`, with the source's NaN defaults;
`none` when a key is missing or a `float(...)` raises (the enclosing
`try/except: pass` then keeps the previous value). -/
def cv_qty_times_unit (row : Row) : Option ℚ :=
  match rowGet row "quantity", rowGet row "unit_value" with
  | some qc, some uc =>
      match (if cellNotna qc then pyFloatOfCell qc else some 1),
            (if cellNotna uc then pyFloatOfCell uc else some 0) with
      | some q, some u => some (q * u)
      | _, _ => none
  | _, _ => none

/-- Third attempt: scan the row for a non-NaN cell whose key contains
`total` or `value`; a positive parse stops the scan, a non-positive parse is
kept and the scan continues, a failing parse is skipped. -/
def cv_scan : Row → ℚ → ℚ
  | [], cur => cur
  | (k, v) :: rest, cur =>
      if (strContains (pyLower k) "total" || strContains (pyLower k) "value") &&
          cellNotna v then
        match pyFloatOfCell v with
        | some x => if 0 < x then x else cv_scan rest x
        | none => cv_scan rest cur
      else cv_scan rest cur

/-- The customs-value determination of `_calculate_duties_for_row`. -/
def determine_customs_value (row : Row) : ℚ :=
  let cv := cv_direct row
  let cv := if cv = 0 then (cv_qty_times_unit row).getD cv else cv
  if cv = 0 then cv_scan row 0 else cv

/-- Models `f"{x:.2f}"` for the effective-rate display (half-even at two decimals;
only its totality matters to the claims). -/
def format2f (x : ℚ) : String :=
  let m := roundHalfEven (x * 100)
  toString (m / 100) ++ "." ++
    (if (m % 100).natAbs < 10 then "0" else "") ++ toString (m % 100).natAbs

/-- The all-zero duty fields used when no usable customs value is found. -/
def zeroDutyUpdate : Row :=
  [("customs_value", .n (some 0)), ("base_duty", .n (some 0)),
   ("mpf", .n (some 0)), ("hmf", .n (some 0)), ("total_duties", .n (some 0)),
   ("total_landed_cost", .n (some 0)), ("effective_duty_rate", .s "0.00%")]

/-- The duty computation of `_calculate_duties_for_row` once the customs
value has been determined. -/
def calc_duties_given_cv
    (calcFn : ℚ → String → String → Bool → Bool → Except String DutyBreakdown)
    (cv : ℚ) (duty_rate ship : String) (mpf hmf : Bool) : Row :=
  if 0 < cv then
    match calcFn cv duty_rate ship mpf hmf with
    | .ok d =>
        [("customs_value", .n (some cv)), ("base_duty", .n (some d.base_duty)),
         ("mpf", .n (some d.mpf)), ("hmf", .n (some d.hmf)),
         ("total_duties", .n (some d.total_duties_and_fees)),
         ("total_landed_cost", .n (some d.total_landed_cost)),
         ("effective_duty_rate", .s (format2f d.effective_duty_rate ++ "%"))]
    | .error e =>
        [("customs_value", .n (some 0)), ("base_duty", .n (some 0)),
         ("mpf", .n (some 0)), ("hmf", .n (some 0)), ("total_duties", .n (some 0)),
         ("total_landed_cost", .n (some 0)), ("effective_duty_rate", .s "Error"),
         ("duty_calc_error", .s e)]
  else zeroDutyUpdate

/-- Models `EnhancedBatchProcessor._calculate_duties_for_row`: every internal
failure is caught; a calculator exception yields the zeroed fields plus
`duty_calc_error`, never an exception. -/
def calc_duties_for_row
    (calcFn : ℚ → String → String → Bool → Bool → Except String DutyBreakdown)
    (row : Row) (duty_rate ship : String) (mpf hmf : Bool) : Row :=
  calc_duties_given_cv calcFn (determine_customs_value row) duty_rate ship mpf hmf

/-- The classification-success updates of the per-row loop (reasoning
truncated to 200 characters with an ellipsis). -/
def success_row (row : Row) (cls : Classification) : Row :=
  updateRow row
    [("hs_code", .s cls.recommended_code), ("confidence", .s cls.confidence),
     ("duty_rate", .s cls.duty_rate),
     ("reasoning", .s (if 200 < strLen cls.reasoning
        then strTake 200 cls.reasoning ++ "..." else cls.reasoning)),
     ("classification_status", .s "Success")]

/-- The body of the per-row loop of
`EnhancedBatchProcessor.process_batch_with_duties` (progress callback,
`processed_at` timestamp and rate-limit sleep have no effect on the result
fields and are not modelled). -/
def processRow (env : BatchEnv) (calcDuties : Bool) (ship : String)
    (mpf hmf : Bool) (idx : Nat) (row : Row) : Row :=
  match class_chain env (product_info_of_row idx row) with
  | .error e =>
      updateRow row
        [("hs_code", .s "ERROR"), ("confidence", .s "0%"), ("duty_rate", .s "N/A"),
         ("reasoning", .s ("Classification error: " ++ e)),
         ("classification_status", .s "Failed")]
  | .ok cls =>
      if calcDuties then
        match env.duty_calculator with
        | some c =>
            updateRow (success_row row cls)
              (calc_duties_for_row c (success_row row cls) cls.duty_rate ship mpf hmf)
        | none => success_row row cls
      else success_row row cls

/-- The loop, carrying the positional index. -/
def process_batch_go (env : BatchEnv) (calcDuties : Bool) (ship : String)
    (mpf hmf : Bool) : Nat → List Row → List Row
  | _, [] => []
  | idx, r :: rs =>
      processRow env calcDuties ship mpf hmf idx r ::
        process_batch_go env calcDuties ship mpf hmf (idx + 1) rs

/-- Models `EnhancedBatchProcessor.process_batch_with_duties`: standardize the
frame, then process each row in order. -/
def process_batch_with_duties (env : BatchEnv) (df : DataFrame) (calcDuties : Bool)
    (ship : String) (mpf hmf : Bool) : List Row :=
  process_batch_go env calcDuties ship mpf hmf 0 (rowsOf (detect_and_map_columns df).1)

/-! ## Helper lemmas -/

theorem rat_clamp_comm (x lo hi : ℚ) (h : lo ≤ hi) :
    max lo (min x hi) = min (max x lo) hi := by
  rcases le_total x lo with h1 | h1
  · rw [min_eq_left (h1.trans h), max_eq_left h1, max_eq_right h1, min_eq_left h]
  · rcases le_total x hi with h2 | h2
    · rw [min_eq_left h2, max_eq_right h1, max_eq_left h1, min_eq_left h2]
    · rw [min_eq_right h2, max_eq_right h, max_eq_left h1, min_eq_right h2]

/-! ## C1 -/

/-- C1: the breakdown returned by `calculate_duties` is NOT always the one
the claim describes: with shipping method `"SEA"` the source still charges
the harbor fee (it compares case-insensitively), and a provided-but-empty
preferential rate string falls back to the standard rate. -/
theorem c1_counterexample :
    ¬ C1_claimedBreakdown 1000 "5%" "SEA" false true (some "")
        (calculate_duties 1000 "5%" "SEA" false true (some "")) := by
  decide

/-- C1 (amended): the breakdown satisfies the claim's equations once the
shipping-method comparison is case-insensitive and an empty preferential
rate falls back to the standard rate. -/
theorem c1_calculate_duties_breakdown :
    ∀ (cv : ℚ) (duty ship : String) (mpf hmf : Bool) (pref : Option String),
      C1_amendedBreakdown cv duty ship mpf hmf pref
        (calculate_duties cv duty ship mpf hmf pref) := by
  intro cv duty ship mpf hmf pref
  refine ⟨rfl, ?_, rfl, rfl, rfl, rfl⟩
  show (if mpf = true then max MPF_MIN (min (cv * MPF_RATE) MPF_MAX) else 0) = _
  rcases mpf with _ | _
  · rfl
  · simp only [if_pos rfl, MPF_MIN, MPF_MAX, MPF_RATE]
    exact rat_clamp_comm _ _ _ (by norm_num)

/-! ## C4 -/

/-- C4: the fee components are NOT nonnegative over all inputs: a negative
customs value yields a negative base duty and landed cost. -/
theorem c4_counterexample :
    ¬ (0 ≤ (calculate_duties (-1000) "5%" "sea" true true none).base_duty ∧
       0 ≤ (calculate_duties (-1000) "5%" "sea" true true none).mpf ∧
       0 ≤ (calculate_duties (-1000) "5%" "sea" true true none).hmf ∧
       0 ≤ (calculate_duties (-1000) "5%" "sea" true true none).total_duties_and_fees ∧
       0 ≤ (calculate_duties (-1000) "5%" "sea" true true none).total_landed_cost) := by
  decide

/-- C4 (amended): for a nonnegative customs value and a nonnegative parsed
duty rate, all five money outputs of `calculate_duties` are nonnegative. -/
theorem c4_fees_nonneg :
    ∀ (cv : ℚ) (duty ship : String) (mpf hmf : Bool) (pref : Option String),
      0 ≤ cv → 0 ≤ parse_duty_rate (effective_rate_str pref duty) →
      0 ≤ (calculate_duties cv duty ship mpf hmf pref).base_duty ∧
      0 ≤ (calculate_duties cv duty ship mpf hmf pref).mpf ∧
      0 ≤ (calculate_duties cv duty ship mpf hmf pref).hmf ∧
      0 ≤ (calculate_duties cv duty ship mpf hmf pref).total_duties_and_fees ∧
      0 ≤ (calculate_duties cv duty ship mpf hmf pref).total_landed_cost := by
  intro cv duty ship mpf hmf pref hcv hr
  have hbase : 0 ≤ cv * parse_duty_rate (effective_rate_str pref duty) :=
    mul_nonneg hcv hr
  have hmpf : (0:ℚ) ≤
      (if mpf = true then max MPF_MIN (min (cv * MPF_RATE) MPF_MAX) else 0) := by
    split
    · exact le_trans (by norm_num [MPF_MIN]) (le_max_left _ _)
    · exact le_refl 0
  have hhmf : (0:ℚ) ≤
      (if hmf = true ∧ pyLower ship = "sea" then cv * HMF_RATE else 0) := by
    split
    · exact mul_nonneg hcv (by norm_num [HMF_RATE])
    · exact le_refl 0
  refine ⟨hbase, hmpf, hhmf, ?_, ?_⟩
  · exact add_nonneg (add_nonneg hbase hmpf) hhmf
  · exact add_nonneg hcv (add_nonneg (add_nonneg hbase hmpf) hhmf)

/-- Witness for `c4_fees_nonneg` at a concrete accepted input. -/
theorem c4_fees_nonneg_witness :
    (0:ℚ) ≤ 1000 ∧ 0 ≤ parse_duty_rate (effective_rate_str none "5%") ∧
    (0 ≤ (calculate_duties 1000 "5%" "sea" true true none).base_duty ∧
     0 ≤ (calculate_duties 1000 "5%" "sea" true true none).mpf ∧
     0 ≤ (calculate_duties 1000 "5%" "sea" true true none).hmf ∧
     0 ≤ (calculate_duties 1000 "5%" "sea" true true none).total_duties_and_fees ∧
     0 ≤ (calculate_duties 1000 "5%" "sea" true true none).total_landed_cost) :=
  ⟨by norm_num, by decide,
   c4_fees_nonneg 1000 "5%" "sea" true true none (by norm_num) (by decide)⟩

/-! ## C5 -/

/-- C5: `parse_duty_rate` agrees everywhere with the claim's description. -/
theorem c5_parse_duty_rate_spec :
    ∀ s : String, parse_duty_rate s = C5_parseDutyRateSpec s := by
  intro s
  unfold parse_duty_rate C5_parseDutyRateSpec
  by_cases h1 : s = ""
  · simp [h1]
  · by_cases h2 : pyLower s = "free" ∨ pyLower s = "n/a" ∨ pyLower s = "none"
    · simp [h1, h2]
    · simp [h1, h2]

/-! ## C3 -/

/-- C3: on parse failure the batch processors' normalizer returns `0`, not
the claimed sentinel `-1`. -/
theorem c3_counterexample :
    _parse_confidence "abc" = 0 ∧ ((0:ℚ) = -1) = False := by
  constructor
  · decide
  · simp only [eq_iff_iff, iff_false]
    norm_num

/-- C3 (amended): on parse failure the app handler's `_float_conf` returns
`-1` while the batch processors' `_parse_confidence` returns `0`; neither
raises, and both sentinels are below the 50-percent routing threshold. -/
theorem c3_parse_failure_sentinels :
    ∀ x : String,
      (pyFloat (if strEndsWithChar '%' (pyStrip x) then strDropLast (pyStrip x)
                else pyStrip x) = none →
        _float_conf x = -1) ∧
      (pyFloat (removeAllChar '%' (pyStrip x)) = none → _parse_confidence x = 0) ∧
      (-1:ℚ) < 50 ∧ (0:ℚ) < 50 := by
  intro x
  refine ⟨?_, ?_, by norm_num, by norm_num⟩
  · intro h
    unfold _float_conf
    simp only [h]
  · intro h
    unfold _parse_confidence
    simp only [h]

/-- Witness for `c3_parse_failure_sentinels` at `"abc"`. -/
theorem c3_parse_failure_sentinels_witness :
    _float_conf "abc" = -1 ∧ _parse_confidence "abc" = 0 :=
  ⟨(c3_parse_failure_sentinels "abc").1 (by decide),
   (c3_parse_failure_sentinels "abc").2.1 (by decide)⟩

/-! ## C2 -/

/-- C2: in the batch processors, a primary result whose code is the sentinel
`"N/A"` but whose normalized confidence is at least 50 does NOT trigger the
fallback (the code is never consulted there), contradicting the claim that
a sentinel code always routes to the fallback. -/
theorem c2_counterexample :
    ("N/A" = "" ∨ "N/A" = "N/A" ∨ "N/A" = "ERROR") ∧
    batch_route (some ⟨"8471.30.01", "70%", "Free", "fb"⟩)
        ⟨"N/A", "90%", "N/A", ""⟩ =
      (⟨"N/A", "90%", "N/A", ""⟩, 0) := by
  refine ⟨Or.inr (Or.inl rfl), ?_⟩
  decide

/-- C2 (amended): the interactive handler invokes the fallback exactly once
and replaces the result wholesale iff fallback is enabled and the result is
missing-or-low (sentinel code or normalized confidence below 50); the batch
processors invoke it exactly once iff a fallback is configured and the
normalized confidence is below 50, the code being ignored; with confidence
at least 50 neither path ever invokes the fallback. -/
theorem c2_fallback_routing :
    ∀ (p fb : Classification),
      (app_missing_or_low p → app_route true p fb = (fb, 1)) ∧
      (¬ app_missing_or_low p → ∀ en : Bool, app_route en p fb = (p, 0)) ∧
      app_route false p fb = (p, 0) ∧
      (_parse_confidence p.confidence < 50 → batch_route (some fb) p = (fb, 1)) ∧
      (50 ≤ _parse_confidence p.confidence → batch_route (some fb) p = (p, 0)) ∧
      batch_route none p = (p, 0) := by
  intro p fb
  refine ⟨?_, ?_, ?_, ?_, ?_, rfl⟩
  · intro h
    simp [app_route, h]
  · intro h en
    simp [app_route, h]
  · simp [app_route]
  · intro h
    simp [batch_route, h]
  · intro h
    simp [batch_route, not_lt.mpr h]

/-- Witness for `c2_fallback_routing`: a 40%-confidence result routes to the
fallback in both paths; a 60%-confidence result is kept in the batch path. -/
theorem c2_fallback_routing_witness :
    app_route true ⟨"1234.56.78", "40%", "5%", "r"⟩ ⟨"fb", "70%", "Free", "fr"⟩ =
      (⟨"fb", "70%", "Free", "fr"⟩, 1) ∧
    batch_route (some ⟨"fb", "70%", "Free", "fr"⟩) ⟨"1234.56.78", "40%", "5%", "r"⟩ =
      (⟨"fb", "70%", "Free", "fr"⟩, 1) ∧
    batch_route (some ⟨"fb", "70%", "Free", "fr"⟩) ⟨"1234.56.78", "60%", "5%", "r"⟩ =
      (⟨"1234.56.78", "60%", "5%", "r"⟩, 0) :=
  ⟨(c2_fallback_routing ⟨"1234.56.78", "40%", "5%", "r"⟩ ⟨"fb", "70%", "Free", "fr"⟩).1
      (by decide),
   (c2_fallback_routing ⟨"1234.56.78", "40%", "5%", "r"⟩ ⟨"fb", "70%", "Free", "fr"⟩).2.2.2.1
      (by decide),
   (c2_fallback_routing ⟨"1234.56.78", "60%", "5%", "r"⟩ ⟨"fb", "70%", "Free", "fr"⟩).2.2.2.2.1
      (by decide)⟩

/-! ## C6 -/

/-- C6: the fallback analyzer flags `needs_review` even at confidence 95
when the code is `"N/A"`, so the flag is NOT equivalent to
`confidence < 80`. -/
theorem c6_counterexample :
    fallback_needs_review "N/A" "95" = true ∧
    ¬ fallback_conf_num "95" < 80 ∧ ¬ _parse_confidence "95" < 80 := by
  refine ⟨by decide, by decide, by decide⟩

/-- C6 (amended): the primary agent's flag is `parsed confidence < 80`
(percent signs stripped, no fraction rescaling, raising on unparsable text);
the fallback analyzer's flag is `normalized confidence < 80 OR code in
{"", "N/A"}`; the 80 threshold comes from `CONFIDENCE_THRESHOLD * 100` and
is distinct from the 50 routing threshold. -/
theorem c6_needs_review_characterization :
    (∀ (s : String) (q : ℚ), pyFloat (removeAllChar '%' s) = some q →
        hs_needs_review s = some (decide (q < 80))) ∧
    (∀ code conf : String, fallback_needs_review code conf = true ↔
        (fallback_conf_num conf < 80 ∨ code = "" ∨ code = "N/A")) ∧
    CONFIDENCE_THRESHOLD * 100 = 80 ∧ (80:ℚ) ≠ 50 := by
  refine ⟨?_, ?_, by norm_num [CONFIDENCE_THRESHOLD], by norm_num⟩
  · intro s q h
    unfold hs_needs_review
    rw [h]
    have h80 : CONFIDENCE_THRESHOLD * 100 = 80 := by norm_num [CONFIDENCE_THRESHOLD]
    simp [h80]
  · intro code conf
    unfold fallback_needs_review
    simp [Bool.or_eq_true, decide_eq_true_eq]

/-- Witness for `c6_needs_review_characterization` at confidence `"87%"`
and a fallback result with code `"N/A"`. -/
theorem c6_needs_review_witness :
    hs_needs_review "87%" = some (decide ((87:ℚ) < 80)) ∧
    (fallback_needs_review "N/A" "95" = true ↔
      (fallback_conf_num "95" < 80 ∨ "N/A" = "" ∨ "N/A" = "N/A")) :=
  ⟨(c6_needs_review_characterization).1 "87%" 87 (by decide),
   (c6_needs_review_characterization).2.1 "N/A" "95"⟩

/-! ## C9 -/

/-- C9: the legacy validator rejects a one-row table (because it lacks
`product_name`/`description` columns), so validation failure is NOT
equivalent to the table having zero or more than 100 rows. -/
theorem c9_counterexample :
    (⟨1, [("zzz", ColData.text ["x"])]⟩ : DataFrame).nrows = 1 ∧
    (bp_validate_input_file ⟨1, [("zzz", ColData.text ["x"])]⟩ false).2.1 = false := by
  exact ⟨rfl, by decide⟩

/-- C9 (amended): the enhanced processor's validator accepts exactly the
tables with 1..100 rows, and a rejected table is returned unmodified; the
legacy `batch_processor.py` variant additionally rejects tables lacking
required columns. -/
theorem c9_enhanced_validate :
    ∀ (df : DataFrame) (w : Bool),
      ((validate_input_file df w).is_valid = true ↔ 1 ≤ df.nrows ∧ df.nrows ≤ 100) ∧
      ((validate_input_file df w).is_valid = false → (validate_input_file df w).df = df) := by
  intro df w
  unfold validate_input_file
  split_ifs with h1 h2 <;> constructor <;> simp_all <;> omega

/-- Witness for `c9_enhanced_validate`: the empty table is rejected and
returned unmodified; a one-row table is accepted. -/
theorem c9_enhanced_validate_witness :
    (validate_input_file ⟨0, []⟩ false).df = (⟨0, []⟩ : DataFrame) ∧
    (validate_input_file ⟨1, [("a", ColData.text ["x"])]⟩ false).is_valid = true :=
  ⟨(c9_enhanced_validate ⟨0, []⟩ false).2 (by decide),
   (c9_enhanced_validate ⟨1, [("a", ColData.text ["x"])]⟩ false).1.mpr
     (by constructor <;> norm_num)⟩

/-! ## Association-list lemmas for the schema mapper -/

theorem hasCol_setCol_self (l : List (String × ColData)) (k : String) (d : ColData) :
    hasCol (setCol l k d) k = true := by
  induction l with
  | nil => simp [setCol, hasCol]
  | cons c cs ih =>
    by_cases h : c.1 = k
    · simp [setCol, h, hasCol]
    · simp only [setCol, if_neg h, hasCol, List.any_cons]
      simp only [hasCol] at ih
      simp [ih]

theorem getCol_setCol_self (l : List (String × ColData)) (k : String) (d : ColData) :
    getCol (setCol l k d) k = some d := by
  induction l with
  | nil => simp [setCol, getCol]
  | cons c cs ih =>
    by_cases h : c.1 = k
    · simp [setCol, h, getCol]
    · simp only [setCol, if_neg h, getCol, List.find?]
      simp only [h, decide_eq_true_eq, if_false, decide_eq_false h]
      simpa [getCol] using ih

theorem getCol_setCol_ne (l : List (String × ColData)) (k k' : String) (d : ColData)
    (h : k' ≠ k) : getCol (setCol l k d) k' = getCol l k' := by
  induction l with
  | nil => simp [setCol, getCol, List.find?, Ne.symm h]
  | cons c cs ih =>
    by_cases hc : c.1 = k
    · simp only [setCol, if_pos hc, getCol, List.find?, decide_eq_false (Ne.symm h),
        decide_eq_false (hc ▸ Ne.symm h : ¬c.1 = k')]
    · simp only [setCol, if_neg hc, getCol, List.find?]
      by_cases hck : c.1 = k'
      · simp [hck]
      · simp only [decide_eq_false hck]
        simpa [getCol] using ih

theorem hasCol_iff_isSome (l : List (String × ColData)) (k : String) :
    hasCol l k = true ↔ (getCol l k).isSome := by
  induction l with
  | nil => simp [hasCol, getCol]
  | cons c cs ih =>
    by_cases h : c.1 = k
    · simp [hasCol, getCol, List.find?, h]
    · simp only [hasCol, List.any_cons, getCol, List.find?, decide_eq_false h]
      simp only [hasCol, getCol] at ih
      simp [h, ih]

theorem hasCol_setCol_of (l : List (String × ColData)) (k k' : String) (d : ColData)
    (h : hasCol l k' = true) : hasCol (setCol l k d) k' = true := by
  by_cases hk : k' = k
  · rw [hk]; exact hasCol_setCol_self l k d
  · rw [hasCol_iff_isSome, getCol_setCol_ne l k k' d hk]
    rw [hasCol_iff_isSome] at h
    exact h

theorem ensureCols_cons (g : String → ColData) (f : String) (fs : List String)
    (l : List (String × ColData)) :
    ensureCols g (f :: fs) l =
      ensureCols g fs (if hasCol l f then l else setCol l f (g f)) := rfl

theorem hasCol_ensureCols_of (g : String → ColData) (names : List String)
    (l : List (String × ColData)) (k : String) (h : hasCol l k = true) :
    hasCol (ensureCols g names l) k = true := by
  induction names generalizing l with
  | nil => simpa [ensureCols] using h
  | cons f fs ih =>
    rw [ensureCols_cons]
    by_cases hf : hasCol l f = true
    · rw [if_pos hf]
      exact ih l h
    · rw [if_neg hf]
      exact ih _ (hasCol_setCol_of l f k (g f) h)

theorem hasCol_ensureCols_mem (g : String → ColData) (names : List String)
    (l : List (String × ColData)) (k : String) (h : k ∈ names) :
    hasCol (ensureCols g names l) k = true := by
  induction names generalizing l with
  | nil => cases h
  | cons f fs ih =>
    rw [ensureCols_cons]
    rcases List.mem_cons.mp h with hk | hk
    · subst hk
      by_cases hf : hasCol l k = true
      · rw [if_pos hf]
        exact hasCol_ensureCols_of g fs l k hf
      · rw [if_neg hf]
        exact hasCol_ensureCols_of g fs _ k (hasCol_setCol_self l k (g k))
    · by_cases hf : hasCol l f = true
      · rw [if_pos hf]
        exact ih l hk
      · rw [if_neg hf]
        exact ih _ hk

theorem getCol_ensureCols_of (g : String → ColData) (names : List String)
    (l : List (String × ColData)) (k : String) (h : hasCol l k = true) :
    getCol (ensureCols g names l) k = getCol l k := by
  induction names generalizing l with
  | nil => simp [ensureCols]
  | cons f fs ih =>
    rw [ensureCols_cons]
    by_cases hf : hasCol l f = true
    · rw [if_pos hf]
      exact ih l h
    · rw [if_neg hf]
      have hkf : k ≠ f := fun he => hf (he ▸ h)
      rw [ih _ (hasCol_setCol_of l f k (g f) h), getCol_setCol_ne l f k (g f) hkf]

theorem hasCol_createProductName_self (std tcols : List (String × ColData)) (n : Nat) :
    hasCol (createProductName std tcols n).1 "product_name" = true := by
  unfold createProductName
  by_cases h : hasCol std "product_name" = true
  · simpa [h] using h
  · rcases tcols with _ | ⟨t, ts⟩ <;> simp [h, hasCol_setCol_self]

theorem hasCol_createProductName_of (std tcols : List (String × ColData)) (n : Nat)
    (k : String) (h : hasCol std k = true) :
    hasCol (createProductName std tcols n).1 k = true := by
  unfold createProductName
  by_cases hp : hasCol std "product_name" = true
  · simpa [hp] using h
  · rcases tcols with _ | ⟨t, ts⟩ <;> simp [hp, hasCol_setCol_of _ _ _ _ h]

theorem getCol_createProductName_ne (std tcols : List (String × ColData)) (n : Nat)
    (k : String) (h : k ≠ "product_name") :
    getCol (createProductName std tcols n).1 k = getCol std k := by
  unfold createProductName
  by_cases hp : hasCol std "product_name" = true
  · simp [hp]
  · rcases tcols with _ | ⟨t, ts⟩ <;> simp [hp, getCol_setCol_ne _ _ _ _ h]

theorem hasCol_createDescription_self (std tcols : List (String × ColData)) (n : Nat) :
    hasCol (createDescription std tcols n).1 "description" = true := by
  unfold createDescription
  by_cases h : hasCol std "description" = true
  · simpa [h] using h
  · rcases tcols with _ | ⟨t, _ | ⟨u, us⟩⟩ <;> simp [h, hasCol_setCol_self]

theorem hasCol_createDescription_of (std tcols : List (String × ColData)) (n : Nat)
    (k : String) (h : hasCol std k = true) :
    hasCol (createDescription std tcols n).1 k = true := by
  unfold createDescription
  by_cases hp : hasCol std "description" = true
  · simpa [hp] using h
  · rcases tcols with _ | ⟨t, _ | ⟨u, us⟩⟩ <;> simp [hp, hasCol_setCol_of _ _ _ _ h]

theorem getCol_createDescription_ne (std tcols : List (String × ColData)) (n : Nat)
    (k : String) (h : k ≠ "description") :
    getCol (createDescription std tcols n).1 k = getCol std k := by
  unfold createDescription
  by_cases hp : hasCol std "description" = true
  · simp [hp]
  · rcases tcols with _ | ⟨t, _ | ⟨u, us⟩⟩ <;> simp [hp, getCol_setCol_ne _ _ _ _ h]

set_option maxHeartbeats 2000000 in
/-- The standardized columns produced by `detect_and_map_columns`,
spelled out. -/
theorem detect_cols_eq (df : DataFrame) :
    (detect_and_map_columns df).1.cols =
      addNumericDefaults
        (addOptionalDefaults
          ((createDescription
            ((createProductName
              (carryUnmapped (normCols df)
                (mapFieldsGo column_patterns (normCols df) []).2.1
                (mapFieldsGo column_patterns (normCols df) []).1)
              (textColumnsOf (normCols df)) df.nrows).1)
            (textColumnsOf (normCols df)) df.nrows).1)
          df.nrows)
        df.nrows := rfl

/-- Every standardized field is present in the mapper's output. -/
theorem std8_present (df : DataFrame) (f : String) (h : f ∈ standardFields) :
    hasCol (detect_and_map_columns df).1.cols f = true := by
  rw [detect_cols_eq]
  unfold addNumericDefaults addOptionalDefaults
  rcases (by simpa [standardFields] using h :
      f = "product_name" ∨ f = "description" ∨ f = "material" ∨ f = "intended_use" ∨
      f = "origin" ∨ f = "quantity" ∨ f = "unit_value" ∨ f = "customs_value") with
    h1 | h1 | h1 | h1 | h1 | h1 | h1 | h1 <;> subst h1
  · exact hasCol_ensureCols_of _ _ _ _ (hasCol_ensureCols_of _ _ _ _
      (hasCol_createDescription_of _ _ _ _ (hasCol_createProductName_self _ _ _)))
  · exact hasCol_ensureCols_of _ _ _ _ (hasCol_ensureCols_of _ _ _ _
      (hasCol_createDescription_self _ _ _))
  · exact hasCol_ensureCols_of _ _ _ _ (hasCol_ensureCols_mem _ _ _ _ (by simp))
  · exact hasCol_ensureCols_of _ _ _ _ (hasCol_ensureCols_mem _ _ _ _ (by simp))
  · exact hasCol_ensureCols_of _ _ _ _ (hasCol_ensureCols_mem _ _ _ _ (by simp))
  · exact hasCol_ensureCols_mem _ _ _ _ (by simp)
  · exact hasCol_ensureCols_mem _ _ _ _ (by simp)
  · exact hasCol_ensureCols_mem _ _ _ _ (by simp)

/-! ## C8 -/

/-- C8: mapping a table whose matched name column contains an empty string
yields an empty `product_name` (and an empty `description`) for that row,
contradicting the claimed non-emptiness guarantees. -/
theorem c8_counterexample :
    getCol (detect_and_map_columns ⟨1, [("name", ColData.text [""])]⟩).1.cols
        "product_name" = some (ColData.text [""]) ∧
    getCol (detect_and_map_columns ⟨1, [("name", ColData.text [""])]⟩).1.cols
        "description" = some (ColData.text [""]) ∧
    isTextData (ColData.text [""]) = true := by
  refine ⟨by decide, by decide, rfl⟩

theorem placeholder_names_nonempty (n : Nat) :
    ∀ s ∈ placeholderNames n, s ≠ "" := by
  intro s hs
  simp only [placeholderNames, List.mem_map] at hs
  obtain ⟨i, _, rfl⟩ := hs
  intro h
  have := congrArg String.length h
  simp [String.length_append] at this
  exact absurd this.1 (by decide)

/-- C8 (amended): the mapper's output always contains `product_name` and
`description` columns; when no column matched the name patterns and the
table has no text-typed column, `product_name` holds the synthesized
placeholders `Product_1, Product_2, …`, which are all non-empty.  Values
copied from source columns, however, may be empty. -/
theorem c8_mapped_columns :
    ∀ df : DataFrame,
      (∃ d, getCol (detect_and_map_columns df).1.cols "product_name" = some d) ∧
      (∃ d, getCol (detect_and_map_columns df).1.cols "description" = some d) ∧
      (hasCol
          (carryUnmapped (normCols df)
            (mapFieldsGo column_patterns (normCols df) []).2.1
            (mapFieldsGo column_patterns (normCols df) []).1) "product_name" = false →
        textColumnsOf (normCols df) = [] →
        getCol (detect_and_map_columns df).1.cols "product_name" =
          some (ColData.text (placeholderNames df.nrows)) ∧
        ∀ s ∈ placeholderNames df.nrows, s ≠ "") := by
  intro df
  refine ⟨?_, ?_, ?_⟩
  · rw [← Option.isSome_iff_exists, ← hasCol_iff_isSome]
    exact std8_present df "product_name" (by simp [standardFields])
  · rw [← Option.isSome_iff_exists, ← hasCol_iff_isSome]
    exact std8_present df "description" (by simp [standardFields])
  · intro hpn htc
    refine ⟨?_, placeholder_names_nonempty df.nrows⟩
    rw [detect_cols_eq]
    have h1 : (createProductName
        (carryUnmapped (normCols df)
          (mapFieldsGo column_patterns (normCols df) []).2.1
          (mapFieldsGo column_patterns (normCols df) []).1)
        (textColumnsOf (normCols df)) df.nrows).1 =
        setCol
          (carryUnmapped (normCols df)
            (mapFieldsGo column_patterns (normCols df) []).2.1
            (mapFieldsGo column_patterns (normCols df) []).1)
          "product_name" (ColData.text (placeholderNames df.nrows)) := by
      unfold createProductName
      rw [htc, hpn]
      simp
    have hstd : hasCol (createProductName
        (carryUnmapped (normCols df)
          (mapFieldsGo column_patterns (normCols df) []).2.1
          (mapFieldsGo column_patterns (normCols df) []).1)
        (textColumnsOf (normCols df)) df.nrows).1 "product_name" = true :=
      hasCol_createProductName_self _ _ _
    have hd : hasCol (createDescription
        (createProductName
          (carryUnmapped (normCols df)
            (mapFieldsGo column_patterns (normCols df) []).2.1
            (mapFieldsGo column_patterns (normCols df) []).1)
          (textColumnsOf (normCols df)) df.nrows).1
        (textColumnsOf (normCols df)) df.nrows).1 "product_name" = true :=
      hasCol_createDescription_of _ _ _ _ hstd
    unfold addNumericDefaults addOptionalDefaults
    rw [getCol_ensureCols_of _ _ _ _ (hasCol_ensureCols_of _ _ _ _ hd),
        getCol_ensureCols_of _ _ _ _ hd,
        getCol_createDescription_ne _ _ _ _ (by decide),
        h1, getCol_setCol_self]

/-- Witness for `c8_mapped_columns`: a table with a single numeric column
gets synthesized placeholder product names. -/
theorem c8_mapped_columns_witness :
    getCol (detect_and_map_columns
        ⟨2, [("zzz", ColData.numeric [some 1, some 2])]⟩).1.cols "product_name" =
      some (ColData.text (placeholderNames 2)) :=
  ((c8_mapped_columns ⟨2, [("zzz", ColData.numeric [some 1, some 2])]⟩).2.2
    (by decide) (by decide)).1

/-! ## Row-dictionary lemmas for the batch runner -/

theorem rowGet_setCell_self (r : Row) (k : String) (v : Cell) :
    rowGet (setCell r k v) k = some v := by
  induction r with
  | nil => simp [setCell, rowGet]
  | cons c cs ih =>
    by_cases h : c.1 = k
    · simp [setCell, h, rowGet]
    · simp only [setCell, if_neg h, rowGet, List.find?, decide_eq_false h]
      simpa [rowGet] using ih

theorem rowGet_setCell_ne (r : Row) (k k' : String) (v : Cell) (h : k' ≠ k) :
    rowGet (setCell r k v) k' = rowGet r k' := by
  induction r with
  | nil => simp [setCell, rowGet, List.find?, Ne.symm h]
  | cons c cs ih =>
    by_cases hc : c.1 = k
    · simp only [setCell, if_pos hc, rowGet, List.find?, decide_eq_false (Ne.symm h),
        decide_eq_false (hc ▸ Ne.symm h : ¬c.1 = k')]
    · simp only [setCell, if_neg hc, rowGet, List.find?]
      by_cases hck : c.1 = k'
      · simp [hck]
      · simp only [decide_eq_false hck]
        simpa [rowGet] using ih

theorem updateRow_cons (r : Row) (c : String × Cell) (cs : Row) :
    updateRow r (c :: cs) = updateRow (setCell r c.1 c.2) cs := rfl

theorem rowGet_updateRow_of_ne (upd : Row) (r : Row) (k : String)
    (h : ∀ p ∈ upd, p.1 ≠ k) : rowGet (updateRow r upd) k = rowGet r k := by
  induction upd generalizing r with
  | nil => rfl
  | cons c cs ih =>
    rw [updateRow_cons, ih _ (fun p hp => h p (List.mem_cons_of_mem c hp)),
      rowGet_setCell_ne _ _ _ _ (fun he => h c (List.mem_cons_self c cs) he.symm)]

theorem calc_duties_keys
    (c : ℚ → String → String → Bool → Bool → Except String DutyBreakdown)
    (row : Row) (dr ship : String) (mpf hmf : Bool) :
    ∀ p ∈ calc_duties_for_row c row dr ship mpf hmf,
      p.1 ∈ ["customs_value", "base_duty", "mpf", "hmf", "total_duties",
             "total_landed_cost", "effective_duty_rate", "duty_calc_error"] := by
  intro p hp
  unfold calc_duties_for_row calc_duties_given_cv at hp
  split at hp
  · split at hp <;>
    · simp only [List.mem_cons, List.not_mem_nil, or_false] at hp
      rcases hp with rfl | rfl | rfl | rfl | rfl | rfl | rfl | rfl <;> simp
  · simp only [zeroDutyUpdate, List.mem_cons, List.not_mem_nil, or_false] at hp
    rcases hp with rfl | rfl | rfl | rfl | rfl | rfl | rfl <;> simp

theorem failed_update_lookup (r : Row) (e : String) :
    rowGet (updateRow r
      [("hs_code", .s "ERROR"), ("confidence", .s "0%"), ("duty_rate", .s "N/A"),
       ("reasoning", .s ("Classification error: " ++ e)),
       ("classification_status", .s "Failed")]) "classification_status" =
        some (.s "Failed") ∧
    rowGet (updateRow r
      [("hs_code", .s "ERROR"), ("confidence", .s "0%"), ("duty_rate", .s "N/A"),
       ("reasoning", .s ("Classification error: " ++ e)),
       ("classification_status", .s "Failed")]) "reasoning" =
        some (.s ("Classification error: " ++ e)) := by
  constructor
  · simp only [updateRow, List.foldl]
    rw [rowGet_setCell_self]
  · simp only [updateRow, List.foldl]
    rw [rowGet_setCell_ne _ _ _ _ (by decide), rowGet_setCell_self]

theorem success_update_lookup (r : Row) (cls : Classification) :
    rowGet (success_row r cls) "classification_status" = some (.s "Success") := by
  simp only [success_row, updateRow, List.foldl]
  rw [rowGet_setCell_self]

theorem process_batch_go_length (env : BatchEnv) (cd : Bool) (ship : String)
    (mpf hmf : Bool) (k : Nat) (rows : List Row) :
    (process_batch_go env cd ship mpf hmf k rows).length = rows.length := by
  induction rows generalizing k with
  | nil => rfl
  | cons r rs ih => simp [process_batch_go, ih]

theorem process_batch_go_getD (env : BatchEnv) (cd : Bool) (ship : String)
    (mpf hmf : Bool) :
    ∀ (rows : List Row) (k i : Nat), i < rows.length →
      (process_batch_go env cd ship mpf hmf k rows).getD i [] =
        processRow env cd ship mpf hmf (k + i) (rows.getD i []) := by
  intro rows
  induction rows with
  | nil => intro k i hi; cases hi
  | cons r rs ih =>
    intro k i hi
    cases i with
    | zero => simp [process_batch_go, List.getD]
    | succ j =>
      have hj : j < rs.length := by simpa using hi
      simp only [process_batch_go, List.getD_cons_succ]
      rw [ih (k + 1) j hj]
      congr 1
      omega

theorem rowsOf_getD (df : DataFrame) (i : Nat) (h : i < df.nrows) :
    (rowsOf df).getD i [] = rowOfFrame df i := by
  simp [rowsOf, List.getD_eq_getElem?_getD, List.getElem?_map, List.getElem?_range, h]

/-! ## C7 -/

/-- C7: a duty-calculation exception does NOT mark the row `Failed`: the row
keeps `classification_status = "Success"` and records the error in a
separate `duty_calc_error` field. -/
theorem c7_counterexample :
    rowGet
      ((process_batch_with_duties
        ⟨fun _ => .ok ⟨"8471.30.01", "90%", "5%", "ok"⟩, none,
         some (fun _ _ _ _ _ => .error "boom")⟩
        ⟨1, [("product_name", ColData.text ["Widget"]),
             ("customs_value", ColData.numeric [some 1000])]⟩
        true "sea" true true).getD 0 []) "classification_status" =
      some (.s "Success") ∧
    rowGet
      ((process_batch_with_duties
        ⟨fun _ => .ok ⟨"8471.30.01", "90%", "5%", "ok"⟩, none,
         some (fun _ _ _ _ _ => .error "boom")⟩
        ⟨1, [("product_name", ColData.text ["Widget"]),
             ("customs_value", ColData.numeric [some 1000])]⟩
        true "sea" true true).getD 0 []) "duty_calc_error" = some (.s "boom") := by
  refine ⟨by decide, by decide⟩

/-- C7 (amended): the enhanced batch runner emits exactly one output row per
input row, in input order; a row whose classification (primary, or fallback
when routed) raises is recorded with `classification_status = "Failed"` and
the error text in `reasoning`; a row whose classification succeeds keeps
`classification_status = "Success"` even if the duty calculation fails
(whose errors are caught into `duty_calc_error`); no exception escapes. -/
theorem c7_row_isolation :
    ∀ (env : BatchEnv) (df : DataFrame) (cd : Bool) (ship : String) (mpf hmf : Bool),
      (process_batch_with_duties env df cd ship mpf hmf).length = df.nrows ∧
      ∀ i, i < df.nrows →
        ((process_batch_with_duties env df cd ship mpf hmf).getD i [] =
          processRow env cd ship mpf hmf i
            (rowOfFrame (detect_and_map_columns df).1 i)) ∧
        (∀ e, class_chain env
            (product_info_of_row i (rowOfFrame (detect_and_map_columns df).1 i)) =
              .error e →
          rowGet ((process_batch_with_duties env df cd ship mpf hmf).getD i [])
              "classification_status" = some (.s "Failed") ∧
          rowGet ((process_batch_with_duties env df cd ship mpf hmf).getD i [])
              "reasoning" = some (.s ("Classification error: " ++ e))) ∧
        (∀ c, class_chain env
            (product_info_of_row i (rowOfFrame (detect_and_map_columns df).1 i)) =
              .ok c →
          rowGet ((process_batch_with_duties env df cd ship mpf hmf).getD i [])
              "classification_status" = some (.s "Success")) := by
  intro env df cd ship mpf hmf
  have hnr : (detect_and_map_columns df).1.nrows = df.nrows := rfl
  have hlen : (rowsOf (detect_and_map_columns df).1).length = df.nrows := by
    simp [rowsOf, hnr]
  constructor
  · rw [process_batch_with_duties, process_batch_go_length, hlen]
  · intro i hi
    have hrow : (process_batch_with_duties env df cd ship mpf hmf).getD i [] =
        processRow env cd ship mpf hmf i
          (rowOfFrame (detect_and_map_columns df).1 i) := by
      rw [process_batch_with_duties,
        process_batch_go_getD env cd ship mpf hmf _ 0 i (by rw [hlen]; exact hi),
        rowsOf_getD _ _ (by rw [hnr]; exact hi), Nat.zero_add]
    refine ⟨hrow, ?_, ?_⟩
    · intro e he
      rw [hrow]
      unfold processRow
      rw [he]
      exact failed_update_lookup _ e
    · intro c hc
      rw [hrow]
      unfold processRow
      rw [hc]
      rcases cd with _ | _
      · exact success_update_lookup _ _
      · rcases hcal : env.duty_calculator with _ | c'
        · simp only [hcal]
          exact success_update_lookup _ _
        · simp only [hcal, if_pos rfl]
          refine (rowGet_updateRow_of_ne _ _ _ ?_).trans (success_update_lookup _ _)
          intro p hp
          exact ne_of_mem_of_not_mem (calc_duties_keys c' _ _ _ _ _ p hp) (by decide)

/-- Witness for `c7_row_isolation` on a one-row frame whose classification
succeeds. -/
theorem c7_row_isolation_witness :
    rowGet ((process_batch_with_duties
        ⟨fun _ => .ok ⟨"8471.30.01", "92%", "Free", "ok"⟩, none, none⟩
        ⟨1, [("product_name", ColData.text ["Widget"])]⟩
        false "sea" true true).getD 0 []) "classification_status" =
      some (.s "Success") :=
  (((c7_row_isolation
      ⟨fun _ => .ok ⟨"8471.30.01", "92%", "Free", "ok"⟩, none, none⟩
      ⟨1, [("product_name", ColData.text ["Widget"])]⟩
      false "sea" true true).2 0 (by decide)).2.2) ⟨"8471.30.01", "92%", "Free", "ok"⟩
    rfl

/-! ## Writeback and key-distinctness lemmas for C10 -/

theorem hasCol_eq_mem_keys (l : List (String × ColData)) (k : String) :
    hasCol l k = true ↔ k ∈ l.map Prod.fst := by
  simp only [hasCol, List.any_eq_true, decide_eq_true_eq, List.mem_map]

theorem mem_keys_setCol (l : List (String × ColData)) (k : String) (d : ColData)
    (m : String) (h : m ∈ (setCol l k d).map Prod.fst) :
    m ∈ l.map Prod.fst ∨ m = k := by
  induction l with
  | nil => simpa [setCol] using h
  | cons c cs ih =>
    by_cases hc : c.1 = k
    · simp only [setCol, if_pos hc, List.map_cons, List.mem_cons] at h
      rcases h with h | h
      · exact Or.inr h
      · exact Or.inl (by simp [h])
    · simp only [setCol, if_neg hc, List.map_cons, List.mem_cons] at h
      rcases h with h | h
      · exact Or.inl (by simp [h])
      · rcases ih h with h2 | h2
        · exact Or.inl (by simp [h2])
        · exact Or.inr h2

theorem nodup_keys_setCol (l : List (String × ColData)) (k : String) (d : ColData)
    (h : (l.map Prod.fst).Nodup) : ((setCol l k d).map Prod.fst).Nodup := by
  induction l with
  | nil => simp [setCol]
  | cons c cs ih =>
    simp only [List.map_cons, List.nodup_cons] at h
    by_cases hc : c.1 = k
    · simp only [setCol, if_pos hc, List.map_cons, List.nodup_cons]
      exact ⟨hc ▸ h.1, h.2⟩
    · simp only [setCol, if_neg hc, List.map_cons, List.nodup_cons]
      refine ⟨fun hm => ?_, ih h.2⟩
      rcases mem_keys_setCol cs k d c.1 hm with h2 | h2
      · exact h.1 h2
      · exact hc h2

theorem nodup_keys_ensureCols (g : String → ColData) (names : List String)
    (l : List (String × ColData)) (h : (l.map Prod.fst).Nodup) :
    ((ensureCols g names l).map Prod.fst).Nodup := by
  induction names generalizing l with
  | nil => simpa [ensureCols] using h
  | cons f fs ih =>
    rw [ensureCols_cons]
    by_cases hf : hasCol l f = true
    · rw [if_pos hf]; exact ih l h
    · rw [if_neg hf]; exact ih _ (nodup_keys_setCol l f (g f) h)

theorem carryUnmapped_cons (c : String × String × ColData)
    (cs : List (String × String × ColData)) (consumed : List String)
    (std : List (String × ColData)) :
    carryUnmapped (c :: cs) consumed std =
      carryUnmapped cs consumed
        (if consumed.contains c.1 then std else setCol std c.1 c.2.2) := rfl

theorem nodup_keys_carryUnmapped (cs : List (String × String × ColData))
    (consumed : List String) (std : List (String × ColData))
    (h : (std.map Prod.fst).Nodup) :
    ((carryUnmapped cs consumed std).map Prod.fst).Nodup := by
  induction cs generalizing std with
  | nil => simpa [carryUnmapped] using h
  | cons c cs ih =>
    rw [carryUnmapped_cons]
    by_cases hc : consumed.contains c.1 = true
    · rw [if_pos hc]; exact ih std h
    · rw [if_neg hc]; exact ih _ (nodup_keys_setCol std c.1 c.2.2 h)

theorem mem_keys_mapFieldsGo (fields : List (String × List (List RTok)))
    (cols : List (String × String × ColData)) (consumed : List String) (m : String)
    (h : m ∈ (mapFieldsGo fields cols consumed).1.map Prod.fst) :
    m ∈ fields.map Prod.fst := by
  induction fields generalizing consumed with
  | nil => simpa [mapFieldsGo] using h
  | cons fp rest ih =>
    rcases fp with ⟨f, pats⟩
    simp only [mapFieldsGo] at h
    rcases hf : cols.find? (fun c => !(consumed.contains c.1) && matchesAny pats c.1) with
      _ | c
    · rw [hf] at h
      exact List.mem_cons_of_mem _ (ih consumed h)
    · rw [hf] at h
      simp only [List.map_cons, List.mem_cons] at h
      rcases h with h | h
      · simp [h]
      · exact List.mem_cons_of_mem _ (ih _ h)

theorem nodup_keys_mapFieldsGo (fields : List (String × List (List RTok)))
    (cols : List (String × String × ColData)) (consumed : List String)
    (h : (fields.map Prod.fst).Nodup) :
    ((mapFieldsGo fields cols consumed).1.map Prod.fst).Nodup := by
  induction fields generalizing consumed with
  | nil => simp [mapFieldsGo]
  | cons fp rest ih =>
    rcases fp with ⟨f, pats⟩
    simp only [List.map_cons, List.nodup_cons] at h
    simp only [mapFieldsGo]
    rcases hf : cols.find? (fun c => !(consumed.contains c.1) && matchesAny pats c.1) with
      _ | c
    · rw [hf]
      exact ih consumed h.2
    · rw [hf]
      simp only [List.map_cons, List.nodup_cons]
      exact ⟨fun hm => h.1 (mem_keys_mapFieldsGo rest cols _ f hm), ih _ h.2⟩

theorem nodup_keys_createProductName (std tcols : List (String × ColData)) (n : Nat)
    (h : (std.map Prod.fst).Nodup) :
    ((createProductName std tcols n).1.map Prod.fst).Nodup := by
  unfold createProductName
  by_cases hp : hasCol std "product_name" = true
  · simpa [hp] using h
  · rcases tcols with _ | ⟨t, ts⟩ <;> simp [hp, nodup_keys_setCol _ _ _ h]

theorem nodup_keys_createDescription (std tcols : List (String × ColData)) (n : Nat)
    (h : (std.map Prod.fst).Nodup) :
    ((createDescription std tcols n).1.map Prod.fst).Nodup := by
  unfold createDescription
  by_cases hp : hasCol std "description" = true
  · simpa [hp] using h
  · rcases tcols with _ | ⟨t, _ | ⟨u, us⟩⟩ <;> simp [hp, nodup_keys_setCol _ _ _ h]

/-- The standardized table has pairwise-distinct column labels. -/
theorem nodup_keys_detect (df : DataFrame) :
    ((detect_and_map_columns df).1.cols.map Prod.fst).Nodup := by
  rw [detect_cols_eq]
  unfold addNumericDefaults addOptionalDefaults
  refine nodup_keys_ensureCols _ _ _ (nodup_keys_ensureCols _ _ _
    (nodup_keys_createDescription _ _ _ (nodup_keys_createProductName _ _ _
      (nodup_keys_carryUnmapped _ _ _ (nodup_keys_mapFieldsGo _ _ _ ?_)))))
  decide

theorem writeback_cons (cols : List (String × ColData)) (c : String × ColData)
    (std : List (String × ColData)) :
    writeback cols (c :: std) = writeback (setCol cols c.1 c.2) std := rfl

theorem getCol_writeback_not (cols std : List (String × ColData)) (k : String)
    (h : hasCol std k = false) :
    getCol (writeback cols std) k = getCol cols k := by
  induction std generalizing cols with
  | nil => rfl
  | cons c cs ih =>
    simp only [hasCol, List.any_cons, Bool.or_eq_false_iff] at h
    rw [writeback_cons, ih _ (by simpa [hasCol] using h.2),
      getCol_setCol_ne _ _ _ _ (fun he => by simp [he] at h)]

theorem getCol_cons (c : String × ColData) (cs : List (String × ColData)) (k : String) :
    getCol (c :: cs) k = if c.1 = k then some c.2 else getCol cs k := by
  by_cases h : c.1 = k <;> simp [getCol, List.find?, h]

theorem getCol_writeback_mem (cols std : List (String × ColData)) (k : String)
    (hn : (std.map Prod.fst).Nodup) (h : hasCol std k = true) :
    getCol (writeback cols std) k = getCol std k := by
  induction std generalizing cols with
  | nil => cases h
  | cons c cs ih =>
    simp only [List.map_cons, List.nodup_cons] at hn
    rw [writeback_cons, getCol_cons]
    by_cases hc : c.1 = k
    · have hcs : hasCol cs k = false := by
        rcases hh : hasCol cs k with _ | _
        · rfl
        · exact absurd (hc ▸ (hasCol_eq_mem_keys cs k).mp hh) hn.1
      rw [getCol_writeback_not _ _ _ hcs, if_pos hc, hc, getCol_setCol_self]
    · have hcs : hasCol cs k = true := by
        simp only [hasCol, List.any_cons, Bool.or_eq_true_iff] at h
        rcases h with h | h
        · exact absurd (by simpa using h) hc
        · simpa [hasCol] using h
      rw [ih _ hn.2 hcs, if_neg hc]

theorem getCol_of_mem_nodup (l : List (String × ColData)) (c : String) (d : ColData)
    (hn : (l.map Prod.fst).Nodup) (h : (c, d) ∈ l) : getCol l c = some d := by
  induction l with
  | nil => cases h
  | cons p ps ih =>
    simp only [List.map_cons, List.nodup_cons] at hn
    rw [getCol_cons]
    rcases List.mem_cons.mp h with h | h
    · rw [if_pos (by simp [← h])]
      simp [← h]
    · have hcm : c ∈ ps.map Prod.fst := List.mem_map_of_mem Prod.fst h
      rw [if_neg (fun he => hn.1 (by rw [he]; exact hcm))]
      exact ih hn.2 h

/-! ## C10 -/

/-- C10: the in-place writes of `validate_input_file` do NOT leave every
other pre-existing column unchanged: a pre-existing column whose label
collides with the normalized label of a different column is overwritten
with that column's data. -/
theorem c10_counterexample :
    (validate_input_file
        ⟨1, [("! a", ColData.text ["x"]), (" a", ColData.text ["y"])]⟩
        false).is_valid = true ∧
    getCol (⟨1, [("! a", ColData.text ["x"]), (" a", ColData.text ["y"])]⟩ :
        DataFrame).cols " a" = some (ColData.text ["y"]) ∧
    getCol (validate_input_file
        ⟨1, [("! a", ColData.text ["x"]), (" a", ColData.text ["y"])]⟩
        false).df.cols " a" = some (ColData.text ["x"]) := by
  refine ⟨by decide, by decide, by decide⟩

/-- C10 (amended): on every accepted table with distinct column labels,
`validate_input_file` returns a frame in which every standardized column
holds the mapper's inferred data, and every pre-existing column whose label
is not among the standardized table's labels is unchanged; columns whose
labels collide with standardized-table labels (the eight fields, or
normalized copies of unmapped columns) are overwritten, so callers observe
a modified input object. -/
theorem c10_validate_inplace :
    ∀ (df : DataFrame) (w : Bool),
      (df.cols.map Prod.fst).Nodup → 1 ≤ df.nrows → df.nrows ≤ 100 →
      (validate_input_file df w).is_valid = true ∧
      (∀ f ∈ standardFields,
        getCol (validate_input_file df w).df.cols f =
          getCol (detect_and_map_columns df).1.cols f) ∧
      (∀ c d, (c, d) ∈ df.cols →
        hasCol (detect_and_map_columns df).1.cols c = false →
        getCol (validate_input_file df w).df.cols c = some d) := by
  intro df w hnodup h1 h100
  have hne : ¬ df.nrows = 0 := by omega
  have hle : ¬ 100 < df.nrows := by omega
  have hcols : (validate_input_file df w).df.cols =
      writeback df.cols (detect_and_map_columns df).1.cols := by
    unfold validate_input_file
    rw [if_neg hne, if_neg hle]
  have hvalid : (validate_input_file df w).is_valid = true := by
    unfold validate_input_file
    rw [if_neg hne, if_neg hle]
  refine ⟨hvalid, ?_, ?_⟩
  · intro f hf
    rw [hcols, getCol_writeback_mem _ _ _ (nodup_keys_detect df) (std8_present df f hf)]
  · intro c d hm hnc
    rw [hcols, getCol_writeback_not _ _ _ hnc]
    exact getCol_of_mem_nodup _ _ _ hnodup hm

/-- Witness for `c10_validate_inplace`: a one-column table whose `Name`
column is consumed by the mapper; the caller's frame gains the standardized
columns while the original `Name` column keeps its data. -/
theorem c10_validate_inplace_witness :
    (validate_input_file ⟨1, [("Name", ColData.text ["A"])]⟩ false).is_valid = true ∧
    getCol (validate_input_file ⟨1, [("Name", ColData.text ["A"])]⟩ false).df.cols
        "product_name" =
      getCol (detect_and_map_columns ⟨1, [("Name", ColData.text ["A"])]⟩).1.cols
        "product_name" ∧
    getCol (validate_input_file ⟨1, [("Name", ColData.text ["A"])]⟩ false).df.cols
        "Name" = some (ColData.text ["A"]) :=
  ⟨(c10_validate_inplace ⟨1, [("Name", ColData.text ["A"])]⟩ false (by decide)
      (by norm_num) (by norm_num)).1,
   (c10_validate_inplace ⟨1, [("Name", ColData.text ["A"])]⟩ false (by decide)
      (by norm_num) (by norm_num)).2.1 "product_name" (by simp [standardFields]),
   (c10_validate_inplace ⟨1, [("Name", ColData.text ["A"])]⟩ false (by decide)
      (by norm_num) (by norm_num)).2.2 "Name" (ColData.text ["A"])
      (by simp) (by decide)⟩
